import Mathlib

/-!
Verification of the checkpointed batch-ingestion pipeline of
graphsense-ethereum-etl (scripts/eth_cassandra_streaming.py).

The Python records are open dictionaries mapping field names to values.
We embed them as association lists over a dynamic value type mirroring the
Python values that occur in the pipeline: ints (block numbers, gas, ...),
strings (hex payloads), bytearrays, lists, tuples, dicts, None, and the
Cassandra UNSET_VALUE marker.  Fallible Python operations (KeyError,
TypeError, ZeroDivisionError, ValueError) are embedded as Option-returning
functions, with `none` for a raised exception.
-/

/-- Dynamic value type for the fields of a decoded record. -/
inductive Value where
  | nat : Nat → Value
  | str : String → Value
  | bytes : List Nat → Value
  | vlist : List Value → Value
  | vtuple : List Value → Value
  | vdict : List (String × Value) → Value
  | null : Value
  | unset : Value

/-- A Python dict with string keys, as an association list. -/
abbrev Dict := List (String × Value)

/-- Dict lookup, `item[k]` / `k in item`: first binding of key `k`. -/
def dget (m : Dict) (k : String) : Option Value :=
  match m with
  | [] => none
  | kv :: rest => if kv.1 = k then some kv.2 else dget rest k

/-- Removal of a key, `item.pop(k)`: drops every binding of `k`. -/
def dpop (m : Dict) (k : String) : Dict :=
  match m with
  | [] => []
  | kv :: rest => if kv.1 = k then dpop rest k else kv :: dpop rest k

/-- Dict update `item[k] = v`.  Position of the binding is irrelevant for
the lookups the pipeline performs, so the updated binding is placed last. -/
def dset (m : Dict) (k : String) (v : Value) : Dict :=
  dpop m k ++ [(k, v)]

theorem dget_dpop_same (m : Dict) (k : String) : dget (dpop m k) k = none := by
  induction m with
  | nil => rfl
  | cons kv rest ih =>
    by_cases h : kv.1 = k
    · simp [dpop, h, ih]
    · simp [dpop, dget, h, ih]

theorem dget_dpop_ne (m : Dict) (k k' : String) (h : k ≠ k') :
    dget (dpop m k) k' = dget m k' := by
  induction m with
  | nil => rfl
  | cons kv rest ih =>
    by_cases hk : kv.1 = k
    · simp [dpop, dget, hk, h, ih]
    · by_cases hk' : kv.1 = k'
      · simp [dpop, dget, hk, hk', Ne.symm h]
      · simp [dpop, dget, hk, hk', ih]

theorem dget_append (l l' : Dict) (k : String) :
    dget (l ++ l') k = match dget l k with
                       | some v => some v
                       | none => dget l' k := by
  induction l with
  | nil => rfl
  | cons kv rest ih =>
    by_cases h : kv.1 = k
    · simp [dget, h]
    · simp [dget, h, ih]

theorem dget_dset_same (m : Dict) (k : String) (v : Value) :
    dget (dset m k v) k = some v := by
  rw [dset, dget_append, dget_dpop_same]
  simp [dget]

theorem dget_dset_ne (m : Dict) (k k' : String) (v : Value) (h : k ≠ k') :
    dget (dset m k v) k' = dget m k' := by
  rw [dset, dget_append, dget_dpop_ne m k k' h]
  cases hg : dget m k' with
  | none => simp [dget, h]
  | some w => rfl

theorem dget_map_values (m : Dict) (f : Value → Value) (k : String) :
    dget (m.map fun kv => (kv.1, f kv.2)) k = (dget m k).map f := by
  induction m with
  | nil => rfl
  | cons kv rest ih =>
    by_cases h : kv.1 = k
    · simp [dget, h]
    · simp [dget, h, ih]

/-!
Hex conversion and null handling (eth_cassandra_streaming.py lines 38-61
and 183-186).
-/

/-- One hexadecimal digit, as in Python's `bytearray.fromhex`. -/
def hexDigitVal (c : Char) : Option Nat :=
  if ('0') ≤ c ∧ c ≤ ('9') then some (c.toNat - ('0').toNat)
  else if ('a') ≤ c ∧ c ≤ ('f') then some (c.toNat - ('a').toNat + 10)
  else if ('A') ≤ c ∧ c ≤ ('F') then some (c.toNat - ('A').toNat + 10)
  else none

/-- Pairs of hex digits to bytes; an odd-length or non-hex input is a
`ValueError` (`none`). -/
def hexPairs : List Char → Option (List Nat)
  | [] => some []
  | [_] => none
  | a :: b :: rest =>
    (hexDigitVal a).bind fun hi =>
    (hexDigitVal b).bind fun lo =>
    (hexPairs rest).map fun tail => (16 * hi + lo) :: tail

/-- Python `bytearray.fromhex` on a pure hex string. -/
def bytearray_fromhex (s : String) : Option (List Nat) :=
  hexPairs s.data

/-- Model of `hex_to_bytearray` (line 183): `bytearray.fromhex(hex_str[2:])`
for a string, `None` passed through, any other type a `TypeError`. -/
def hex_to_bytearray : Value → Option Value
  | Value.null => some Value.null
  | Value.str s => (bytearray_fromhex (s.drop 2)).map Value.bytes
  | _ => none

/-- Python `UNSET_VALUE if v is None else v`. -/
def unsetNone (v : Value) : Value :=
  match v with
  | Value.null => Value.unset
  | _ => v

/-- The dict branch of `none_to_unset`, applied to every row before it is
handed to `cassandra_ingest`. -/
def noneToUnsetDict (m : Dict) : Dict :=
  m.map fun kv => (kv.1, unsetNone kv.2)

/-- Model of `none_to_unset` (lines 38-61): maps `None` values of a dict,
tuple or list to `UNSET_VALUE`; any other input type raises (`none`). -/
def none_to_unset : Value → Option Value
  | Value.vdict m => some (Value.vdict (noneToUnsetDict m))
  | Value.vtuple vs => some (Value.vtuple (vs.map unsetNone))
  | Value.vlist vs => some (Value.vlist (vs.map unsetNone))
  | _ => none

/-- Whether a value is one of the container types `none_to_unset` accepts. -/
def isContainer : Value → Bool
  | Value.vdict _ => true
  | Value.vtuple _ => true
  | Value.vlist _ => true
  | _ => false

/-- True unless the value is Python `None`. -/
def notNull : Value → Bool
  | Value.null => false
  | _ => true

/-- No immediate member of the container is a structural null. -/
def hasNoNullField : Value → Bool
  | Value.vdict m => m.all fun kv => notNull kv.2
  | Value.vtuple vs => vs.all notNull
  | Value.vlist vs => vs.all notNull
  | _ => true

theorem notNull_unsetNone (v : Value) : notNull (unsetNone v) = true := by
  cases v <;> rfl

/-!
The per-field hex-blob conversion loop
(`for elem in blob_colums: item[elem] = hex_to_bytearray(item[elem])`).
-/

/-- One step of the blob loop for column `k`. -/
def convert_blob (m : Dict) (k : String) : Option Dict :=
  (dget m k).bind fun v => (hex_to_bytearray v).map (dset m k)

/-- The whole blob-column loop. -/
def convert_blobs : List String → Dict → Option Dict
  | [], m => some m
  | c :: cs, m => (convert_blob m c).bind fun m1 => convert_blobs cs m1

theorem convert_blobs_not_mem (cols : List String) (m m' : Dict) (k : String)
    (hk : k ∉ cols) (h : convert_blobs cols m = some m') :
    dget m' k = dget m k := by
  induction cols generalizing m with
  | nil =>
    simp only [convert_blobs, Option.some.injEq] at h
    rw [h]
  | cons c cs ih =>
    simp only [convert_blobs, Option.bind_eq_some] at h
    obtain ⟨m1, h1, h2⟩ := h
    simp only [convert_blob, Option.bind_eq_some] at h1
    obtain ⟨v, hv, h1⟩ := h1
    simp only [Option.map_eq_some'] at h1
    obtain ⟨v', hv', h1⟩ := h1
    have hkc : k ≠ c := fun hh => hk (hh ▸ List.mem_cons_self c cs)
    have hkcs : k ∉ cs := fun hh => hk (List.mem_cons_of_mem c hh)
    rw [ih m1 hkcs h2, ← h1, dget_dset_ne m c k v' (Ne.symm hkc)]

theorem convert_blobs_mem (cs1 cs2 : List String) (m m' : Dict) (k : String)
    (h1 : k ∉ cs1) (h2 : k ∉ cs2)
    (h : convert_blobs (cs1 ++ k :: cs2) m = some m') :
    ∃ v v', dget m k = some v ∧ hex_to_bytearray v = some v'
      ∧ dget m' k = some v' := by
  induction cs1 generalizing m with
  | nil =>
    simp only [List.nil_append, convert_blobs, Option.bind_eq_some] at h
    obtain ⟨m1, hstep, hrest⟩ := h
    simp only [convert_blob, Option.bind_eq_some] at hstep
    obtain ⟨v, hv, hstep⟩ := hstep
    simp only [Option.map_eq_some'] at hstep
    obtain ⟨v', hv', hm1⟩ := hstep
    refine ⟨v, v', hv, hv', ?_⟩
    rw [convert_blobs_not_mem cs2 m1 m' k h2 hrest, ← hm1, dget_dset_same]
  | cons c cs ih =>
    simp only [List.cons_append, convert_blobs, Option.bind_eq_some] at h
    obtain ⟨m1, hstep, hrest⟩ := h
    simp only [convert_blob, Option.bind_eq_some] at hstep
    obtain ⟨v, hv, hstep⟩ := hstep
    simp only [Option.map_eq_some'] at hstep
    obtain ⟨v', hv', hm1⟩ := hstep
    have hkc : k ≠ c := fun hh => h1 (hh ▸ List.mem_cons_self c cs)
    have hkcs : k ∉ cs := fun hh => h1 (List.mem_cons_of_mem c hh)
    obtain ⟨w, w', hw, hw', hres⟩ := ih m1 hkcs hrest
    rw [← hm1, dget_dset_ne m c k v' (Ne.symm hkc)] at hw
    exact ⟨w, w', hw, hw', hres⟩

/-!
Record transformers: the per-item loop bodies of `ingest_blocks`,
`ingest_transactions`, `ingest_traces` and `ingest_logs`
(eth_cassandra_streaming.py lines 323-467).
-/

/-- Python `//` on a record field: integer floor division; a non-int
left operand is a `TypeError`, a zero divisor a `ZeroDivisionError`. -/
def divGroup (v : Value) (bucket_size : Nat) : Option Value :=
  match v, bucket_size with
  | Value.nat n, b + 1 => some (Value.nat (n / (b + 1)))
  | _, _ => none

/-- Python slicing `x[start:start+len]` used for the tx-hash shard key;
modelled for the sequence types the pipeline can hold. -/
def sliceStr : Value → Nat → Nat → Option Value
  | Value.str s, start, len => some (Value.str ((s.drop start).take len))
  | Value.bytes b, start, len => some (Value.bytes ((b.drop start).take len))
  | Value.vlist vs, start, len => some (Value.vlist ((vs.drop start).take len))
  | Value.vtuple vs, start, len => some (Value.vtuple ((vs.drop start).take len))
  | _, _, _ => none

/-- Python `str(...)` for the values that occur in `trace_address` paths.
Only the int branch is exercised by real trace records. -/
def valueToStr : Value → String
  | Value.nat n => Nat.repr n
  | Value.str s => s
  | Value.null => "None"
  | _ => ""

/-- Serialization of the trace-address path (lines 456-460): the items
joined with commas when not `None`, else `None`; a non-iterable value is
a `TypeError`. -/
def joinTraceAddress : Value → Option Value
  | Value.null => some Value.null
  | Value.vlist vs => some (Value.str (String.intercalate (",") (vs.map valueToStr)))
  | Value.vtuple vs => some (Value.str (String.intercalate (",") (vs.map valueToStr)))
  | _ => none

/-- Model of lines 346-349: the topics list, with `None` read as the
empty list; later iteration over a non-list value raises, modelled here. -/
def asTopicsList : Value → Option (List Value)
  | Value.null => some []
  | Value.vlist vs => some vs
  | _ => none

/-- Model of line 355: the first topic, or the `"0x"` sentinel. -/
def headTopic : List Value → Value
  | [] => Value.str ("0x")
  | t :: _ => t

def block_blob_columns : List String :=
  ["block_hash", "parent_hash", "nonce", "sha3_uncles", "logs_bloom",
   "transactions_root", "state_root", "receipts_root", "miner", "extra_data"]

def tx_blob_columns : List String :=
  ["tx_hash", "from_address", "to_address", "input", "block_hash",
   "receipt_contract_address", "receipt_root"]

def trace_blob_columns : List String :=
  ["tx_hash", "from_address", "to_address", "input", "output"]

def log_blob_columns : List String :=
  ["block_hash", "address", "data", "topic0", "tx_hash"]

/-- Loop body of `ingest_blocks` (lines 390-399). -/
def transform_block (block_bucket_size : Nat) (item : Dict) : Option Dict :=
  (dget item ("type")).bind fun _ =>
  let i1 := dpop item ("type")
  (dget i1 ("number")).bind fun num =>
  let i2 := dset (dpop i1 ("number")) ("block_id") num
  (dget i2 ("block_id")).bind fun bid =>
  (divGroup bid block_bucket_size).bind fun g =>
  let i3 := dset i2 ("block_id_group") g
  (dget i3 ("hash")).bind fun hv =>
  let i4 := dset (dpop i3 ("hash")) ("block_hash") hv
  convert_blobs block_blob_columns i4

/-- Loop body of `ingest_transactions` (lines 423-433). -/
def transform_transaction (prefixLen : Nat) (item : Dict) : Option Dict :=
  (dget item ("type")).bind fun _ =>
  let i1 := dpop item ("type")
  (dget i1 ("hash")).bind fun hv =>
  let i2 := dset (dpop i1 ("hash")) ("tx_hash") hv
  (dget i2 ("tx_hash")).bind fun thv =>
  (sliceStr thv 2 prefixLen).bind fun pv =>
  let i3 := dset i2 ("tx_hash_prefix") pv
  (dget i3 ("block_number")).bind fun bn =>
  let i4 := dset (dpop i3 ("block_number")) ("block_id") bn
  convert_blobs tx_blob_columns i4

/-- Loop body of `ingest_traces` (lines 449-463). -/
def transform_trace (block_bucket_size : Nat) (item : Dict) : Option Dict :=
  (dget item ("type")).bind fun _ =>
  let i1 := dpop item ("type")
  (dget i1 ("transaction_hash")).bind fun th =>
  let i2 := dset (dpop i1 ("transaction_hash")) ("tx_hash") th
  (dget i2 ("block_number")).bind fun bn =>
  let i3 := dset (dpop i2 ("block_number")) ("block_id") bn
  (dget i3 ("block_id")).bind fun bid =>
  (divGroup bid block_bucket_size).bind fun g =>
  let i4 := dset i3 ("block_id_group") g
  (dget i4 ("trace_address")).bind fun ta =>
  (joinTraceAddress ta).bind fun tj =>
  let i5 := dset i4 ("trace_address") tj
  convert_blobs trace_blob_columns i5

/-- Model of the per-row list comprehensions such as
`[hex_to_bytearray(t) for t in tpcs]`: `some` only when every element
converts. -/
def mapO (f : α → Option β) : List α → Option (List β)
  | [] => some []
  | x :: xs =>
    (f x).bind fun y => (mapO f xs).map fun ys => y :: ys

/-- Loop body of `ingest_logs` (lines 338-363). -/
def transform_log (block_bucket_size : Nat) (item : Dict) : Option Dict :=
  (dget item ("type")).bind fun _ =>
  let i1 := dpop item ("type")
  (dget i1 ("transaction_hash")).bind fun th =>
  let i2 := dset (dpop i1 ("transaction_hash")) ("tx_hash") th
  (dget i2 ("block_number")).bind fun bn =>
  let i3 := dset (dpop i2 ("block_number")) ("block_id") bn
  (dget i3 ("block_id")).bind fun bid =>
  (divGroup bid block_bucket_size).bind fun g =>
  let i4 := dset i3 ("block_id_group") g
  (dget i4 ("topics")).bind fun tv =>
  (asTopicsList tv).bind fun tpcs =>
  let i5 := if (dget i4 ("topic0")).isSome then i4
            else dset i4 ("topic0") (headTopic tpcs)
  (mapO hex_to_bytearray tpcs).bind fun ts =>
  let i6 := dset i5 ("topics") (Value.vlist ts)
  let i7 := if (dget i6 ("transaction_hash")).isSome
            then dpop i6 ("transaction_hash") else i6
  convert_blobs log_blob_columns i7

/-- The row list an `ingest_*` function hands to `cassandra_ingest`:
transform every item, then `[none_to_unset(row) for row in items]`. -/
def ingest_rows (transform : Dict → Option Dict) (items : List Dict) :
    Option (List Value) :=
  (mapO transform items).bind fun ts =>
  mapO (fun r => none_to_unset (Value.vdict r)) ts

/-- Model of `ingest_blocks` up to the Cassandra write (lines 370-403). -/
def ingest_blocks (block_bucket_size : Nat) (items : List Dict) : Option (List Value) :=
  ingest_rows (transform_block block_bucket_size) items

/-- Model of `ingest_transactions` up to the Cassandra write (lines 406-437). -/
def ingest_transactions (prefixLen : Nat) (items : List Dict) : Option (List Value) :=
  ingest_rows (transform_transaction prefixLen) items

/-- Model of `ingest_traces` up to the Cassandra write (lines 440-467). -/
def ingest_traces (block_bucket_size : Nat) (items : List Dict) : Option (List Value) :=
  ingest_rows (transform_trace block_bucket_size) items

/-- Model of `ingest_logs` up to the Cassandra write (lines 323-367). -/
def ingest_logs (block_bucket_size : Nat) (items : List Dict) : Option (List Value) :=
  ingest_rows (transform_log block_bucket_size) items

theorem mapO_mem (f : α → Option β) (xs : List α) (ys : List β) (y : β)
    (h : mapO f xs = some ys) (hy : y ∈ ys) : ∃ x ∈ xs, f x = some y := by
  induction xs generalizing ys with
  | nil =>
    simp only [mapO, Option.some.injEq] at h
    rw [← h] at hy
    cases hy
  | cons x xs ih =>
    simp only [mapO, Option.bind_eq_some] at h
    obtain ⟨z, hz, h⟩ := h
    simp only [Option.map_eq_some'] at h
    obtain ⟨zs, hzs, h⟩ := h
    rw [← h] at hy
    rcases List.mem_cons.mp hy with hh | hh
    · exact ⟨x, List.mem_cons_self x xs, hh ▸ hz⟩
    · obtain ⟨w, hw, hfw⟩ := ih zs hzs hh
      exact ⟨w, List.mem_cons_of_mem x hw, hfw⟩

/-!
Checkpoint resolver: `get_last_ingested_block`
(eth_cassandra_streaming.py lines 225-245).  A table is modelled as the
list of its rows' `(block_id_group, block_id)` pairs; the two CQL queries
are modelled by their read semantics: `PER PARTITION LIMIT 1` yields the
distinct partition (bucket-group) values present, and
`SELECT MAX(block_id) ... WHERE block_id_group = g` the maximum id among
rows of group `g` (null, i.e. `none`, when no row matches).
-/

/-- Python `max(l)` / Cassandra `MAX`: `none` on an empty list. -/
def pymax : List Nat → Option Nat
  | [] => none
  | a :: as => some (as.foldl Nat.max a)

theorem foldl_max_init_le (l : List Nat) (a : Nat) : a ≤ l.foldl Nat.max a := by
  induction l generalizing a with
  | nil => exact Nat.le_refl a
  | cons b t ih => exact Nat.le_trans (Nat.le_max_left a b) (ih (Nat.max a b))

theorem foldl_max_le_of_mem (l : List Nat) :
    ∀ (a x : Nat), x ∈ l → x ≤ l.foldl Nat.max a := by
  induction l with
  | nil => intro a x hx; cases hx
  | cons b t ih =>
    intro a x hx
    rw [List.foldl_cons]
    rcases List.mem_cons.mp hx with h | h
    · have h2 : b ≤ Nat.max a b := Nat.le_max_right a b
      have h1 : Nat.max a b ≤ List.foldl Nat.max (Nat.max a b) t :=
        foldl_max_init_le t (Nat.max a b)
      subst h
      exact Nat.le_trans h2 h1
    · exact ih (Nat.max a b) x h

theorem foldl_max_mem (l : List Nat) :
    ∀ a, l.foldl Nat.max a = a ∨ l.foldl Nat.max a ∈ l := by
  induction l with
  | nil => intro a; exact Or.inl rfl
  | cons b t ih =>
    intro a
    rw [List.foldl_cons]
    rcases ih (Nat.max a b) with h | h
    · rcases Nat.le_total a b with hab | hab
      · right
        have hb : Nat.max a b = b := Nat.max_eq_right hab
        rw [h, hb]
        exact List.mem_cons_self b t
      · left
        have ha : Nat.max a b = a := Nat.max_eq_left hab
        rw [h, ha]
    · exact Or.inr (List.mem_cons_of_mem b h)

theorem pymax_spec (l : List Nat) (hne : l ≠ []) :
    ∃ m, pymax l = some m ∧ m ∈ l ∧ ∀ x ∈ l, x ≤ m := by
  match l with
  | [] => exact absurd rfl hne
  | a :: as =>
    refine ⟨as.foldl Nat.max a, rfl, ?_, ?_⟩
    · rcases foldl_max_mem as a with h | h
      · rw [h]; exact List.mem_cons_self a as
      · exact List.mem_cons_of_mem a h
    · intro x hx
      rcases List.mem_cons.mp hx with h | h
      · exact h ▸ foldl_max_init_le as a
      · exact foldl_max_le_of_mem as a x h

/-- Model of `get_last_ingested_block` (lines 225-245): distinct groups
present, `None` when there are none, else the maximum `block_id` within
the maximum group. -/
def get_last_ingested_block (table : List (Nat × Nat)) : Option Nat :=
  let groups := (table.map Prod.fst).dedup
  match pymax groups with
  | none => none
  | some g => pymax ((table.filter fun r => r.1 = g).map Prod.snd)

/-!
Concurrent write engine: `cassandra_ingest`
(eth_cassandra_streaming.py lines 263-303).  The store is modelled as a
trace of outcomes, one per store call, consumed in order: a batch
submission either throws (`batchThrow`) or returns with `k` failing rows
(`batchOk k`), and each single-row `session.execute` retry either throws
(`rowFail`) or succeeds (`rowOk`).  The run returns the number of store
calls issued and whether the function returned or (re)raised, or `none`
when the trace is malformed or too short to finish the run.
-/

inductive StoreOutcome where
  | batchThrow : StoreOutcome
  | batchOk : Nat → StoreOutcome
  | rowFail : StoreOutcome
  | rowOk : StoreOutcome

inductive RunResult where
  | completed : Nat → RunResult
  | raised : Nat → RunResult

/-- Model of `cassandra_ingest` as a function of the retry budget `retry_thsh`,
the mutable counter `ctr`, the store calls issued so far, the control
position (`none` = about to submit the batch, `some k` = `k` failed rows
still to be retried row-by-row), and the store trace. -/
def cassandra_ingest (retry_thsh : Nat) :
    Nat → Nat → Option Nat → List StoreOutcome → Option RunResult
  | _, _, _, [] => none
  | ctr, att, none, StoreOutcome.batchThrow :: rest =>
    if ctr + 1 > retry_thsh then some (RunResult.raised (att + 1))
    else cassandra_ingest retry_thsh (ctr + 1) (att + 1) none rest
  | _, att, none, StoreOutcome.batchOk 0 :: _ =>
    some (RunResult.completed (att + 1))
  | ctr, att, none, StoreOutcome.batchOk (k + 1) :: rest =>
    cassandra_ingest retry_thsh ctr (att + 1) (some (k + 1)) rest
  | ctr, att, some k, StoreOutcome.rowFail :: rest =>
    if ctr + 1 > retry_thsh then some (RunResult.raised (att + 1))
    else cassandra_ingest retry_thsh (ctr + 1) (att + 1) (some k) rest
  | _, att, some 0, StoreOutcome.rowOk :: _ =>
    some (RunResult.completed (att + 1))
  | _, att, some 1, StoreOutcome.rowOk :: _ =>
    some (RunResult.completed (att + 1))
  | _, att, some (k + 2), StoreOutcome.rowOk :: rest =>
    cassandra_ingest retry_thsh 0 (att + 1) (some (k + 1)) rest
  | _, _, none, StoreOutcome.rowFail :: _ => none
  | _, _, none, StoreOutcome.rowOk :: _ => none
  | _, _, some _, StoreOutcome.batchThrow :: _ => none
  | _, _, some _, StoreOutcome.batchOk _ :: _ => none

/-- Modelled from the spec: the write engine §4.5 claims in addition that
"a successful pass resets the retry counter to zero"; this variant resets
`ctr` after every successful batch submission as well, and is otherwise
identical to `cassandra_ingest`. -/
def cassandra_ingest_reset_on_pass (retry_thsh : Nat) :
    Nat → Nat → Option Nat → List StoreOutcome → Option RunResult
  | _, _, _, [] => none
  | ctr, att, none, StoreOutcome.batchThrow :: rest =>
    if ctr + 1 > retry_thsh then some (RunResult.raised (att + 1))
    else cassandra_ingest_reset_on_pass retry_thsh (ctr + 1) (att + 1) none rest
  | _, att, none, StoreOutcome.batchOk 0 :: _ =>
    some (RunResult.completed (att + 1))
  | _, att, none, StoreOutcome.batchOk (k + 1) :: rest =>
    cassandra_ingest_reset_on_pass retry_thsh 0 (att + 1) (some (k + 1)) rest
  | ctr, att, some k, StoreOutcome.rowFail :: rest =>
    if ctr + 1 > retry_thsh then some (RunResult.raised (att + 1))
    else cassandra_ingest_reset_on_pass retry_thsh (ctr + 1) (att + 1) (some k) rest
  | _, att, some 0, StoreOutcome.rowOk :: _ =>
    some (RunResult.completed (att + 1))
  | _, att, some 1, StoreOutcome.rowOk :: _ =>
    some (RunResult.completed (att + 1))
  | _, att, some (k + 2), StoreOutcome.rowOk :: rest =>
    cassandra_ingest_reset_on_pass retry_thsh 0 (att + 1) (some (k + 1)) rest
  | _, _, none, StoreOutcome.rowFail :: _ => none
  | _, _, none, StoreOutcome.rowOk :: _ => none
  | _, _, some _, StoreOutcome.batchThrow :: _ => none
  | _, _, some _, StoreOutcome.batchOk _ :: _ => none

/-!
Batch window scheduler: the main ingestion loop
(eth_cassandra_streaming.py lines 619-636)
`for block_id in range(start_block, end_block + 1, batch_size):
   current_end_block = min(end_block, block_id + batch_size - 1); ...`.
-/

/-- The successive `(block_id, current_end_block)` windows the loop
processes, one list entry per loop iteration. -/
def windows (w s e : Nat) : List (Nat × Nat) :=
  if h : 0 < w ∧ s ≤ e then
    (s, min e (s + w - 1)) :: windows w (s + w) e
  else []
  termination_by e + 1 - s
  decreasing_by
    exact Nat.sub_lt_sub_left (Nat.lt_succ_of_le h.2)
      (Nat.lt_add_of_pos_right h.1)

/-- Contiguous block ids `s, s+1, ..., s+n-1`. -/
def rangeIds : Nat → Nat → List Nat
  | _, 0 => []
  | s, n + 1 => s :: rangeIds (s + 1) n

theorem rangeIds_append (m : Nat) :
    ∀ s n, rangeIds s m ++ rangeIds (s + m) n = rangeIds s (m + n) := by
  induction m with
  | zero => intro s n; simp [rangeIds]
  | succ m ih =>
    intro s n
    have h1 : s + (m + 1) = (s + 1) + m := by omega
    have h2 : m + 1 + n = (m + n) + 1 := by omega
    rw [rangeIds, h1, List.cons_append, ih (s + 1) n, h2, rangeIds]

/-- The four tables written per window. -/
inductive Table where
  | log : Table
  | trace : Table
  | transaction : Table
  | block : Table

/-- The trace of write submissions the single-threaded main loop issues:
for each window, in program order, `ingest_logs`, `ingest_traces`,
`ingest_transactions`, `ingest_blocks` (lines 631-636), then the next
window.  List order is execution order. -/
def main_schedule (w s e : Nat) : List (Table × Nat × Nat) :=
  if h : 0 < w ∧ s ≤ e then
    (Table.log, s, min e (s + w - 1)) ::
    (Table.trace, s, min e (s + w - 1)) ::
    (Table.transaction, s, min e (s + w - 1)) ::
    (Table.block, s, min e (s + w - 1)) ::
    main_schedule w (s + w) e
  else []
  termination_by e + 1 - s
  decreasing_by
    exact Nat.sub_lt_sub_left (Nat.lt_succ_of_le h.2)
      (Nat.lt_add_of_pos_right h.1)

/-- Bucket key assigner: `item["block_id"] // block_bucket_size`
(lines 344, 395, 455) on a block number; a zero bucket size is a
`ZeroDivisionError`. -/
def bucket (bucket_size i : Nat) : Option Nat :=
  match bucket_size with
  | 0 => none
  | b + 1 => some (i / (b + 1))

/-- Start-block resolution (lines 588-593): an explicit `-s` argument
wins; otherwise one past the checkpoint, or 0 for a fresh table. -/
def compute_start_block (argStart : Option Nat) (lastIngested : Option Nat) : Nat :=
  match argStart with
  | none =>
    match lastIngested with
    | some m => m + 1
    | none => 0
  | some sb => sb

/-!
Claim theorems.
-/

/-- C1: for every table, if the table contains rows and `M` is the maximum
primary id among the rows of its highest bucket group, the checkpoint
resolver returns `M`; if the table contains no rows it returns `none`. -/
theorem get_last_ingested_block_spec (table : List (Nat × Nat)) (G M : Nat)
    (hGmem : G ∈ table.map Prod.fst)
    (hG : ∀ r ∈ table, r.1 ≤ G)
    (hMmem : (G, M) ∈ table)
    (hM : ∀ r ∈ table, r.1 = G → r.2 ≤ M) :
    get_last_ingested_block table = some M
    ∧ get_last_ingested_block [] = none := by
  refine ⟨?_, rfl⟩
  have hGd : G ∈ (table.map Prod.fst).dedup := List.mem_dedup.mpr hGmem
  have hne : (table.map Prod.fst).dedup ≠ [] := by
    intro hh
    rw [hh] at hGd
    cases hGd
  obtain ⟨g, hg, hgmem, hgmax⟩ := pymax_spec _ hne
  have hgmem' : g ∈ table.map Prod.fst := List.mem_dedup.mp hgmem
  obtain ⟨r, hr, hr1⟩ := List.mem_map.mp hgmem'
  have hEq : g = G := Nat.le_antisymm (hr1 ▸ hG r hr) (hgmax G hGd)
  subst hEq
  have hMid : M ∈ (table.filter fun r => r.1 = g).map Prod.snd := by
    refine List.mem_map.mpr ⟨(g, M), ?_, rfl⟩
    exact List.mem_filter.mpr ⟨hMmem, by simp⟩
  have hidne : (table.filter fun r => r.1 = g).map Prod.snd ≠ [] := by
    intro hh
    rw [hh] at hMid
    cases hMid
  obtain ⟨m, hm, hmmem, hmmax⟩ := pymax_spec _ hidne
  have hmM : m ≤ M := by
    obtain ⟨q, hq, hq2⟩ := List.mem_map.mp hmmem
    have hq' := List.mem_filter.mp hq
    have : q.1 = g := by simpa using hq'.2
    exact hq2 ▸ hM q hq'.1 this
  have hMm : M ≤ m := hmmax M hMid
  have : m = M := Nat.le_antisymm hmM hMm
  subst this
  simp only [get_last_ingested_block, hg, hm]

/-- Witness for C1: a three-row table whose highest bucket group is 1 and
whose maximum id in that group is 1500. -/
theorem get_last_ingested_block_spec_witness :
    get_last_ingested_block [(0, 999), (1, 1200), (1, 1500)] = some 1500
    ∧ get_last_ingested_block [] = none :=
  get_last_ingested_block_spec [(0, 999), (1, 1200), (1, 1500)] 1 1500
    (by decide) (by decide) (by decide) (by decide)

theorem cassandra_ingest_throws (retry_thsh : Nat) :
    ∀ (j ctr att : Nat) (rest : List StoreOutcome), ctr + j ≤ retry_thsh →
    cassandra_ingest retry_thsh ctr att none
        (List.replicate j StoreOutcome.batchThrow ++ rest)
      = cassandra_ingest retry_thsh (ctr + j) (att + j) none rest := by
  intro j
  induction j with
  | zero => intro ctr att rest hle; rfl
  | succ j ih =>
    intro ctr att rest hle
    rw [List.replicate_succ, List.cons_append]
    show (if ctr + 1 > retry_thsh then some (RunResult.raised (att + 1))
          else cassandra_ingest retry_thsh (ctr + 1) (att + 1) none
            (List.replicate j StoreOutcome.batchThrow ++ rest)) = _
    rw [if_neg (by omega), ih (ctr + 1) (att + 1) rest (by omega)]
    have e1 : ctr + 1 + j = ctr + (j + 1) := by omega
    have e2 : att + 1 + j = att + (j + 1) := by omega
    rw [e1, e2]

theorem cassandra_ingest_rowfails (retry_thsh : Nat) :
    ∀ (j ctr att k : Nat) (rest : List StoreOutcome), ctr + j ≤ retry_thsh →
    cassandra_ingest retry_thsh ctr att (some k)
        (List.replicate j StoreOutcome.rowFail ++ rest)
      = cassandra_ingest retry_thsh (ctr + j) (att + j) (some k) rest := by
  intro j
  induction j with
  | zero => intro ctr att k rest hle; rfl
  | succ j ih =>
    intro ctr att k rest hle
    rw [List.replicate_succ, List.cons_append]
    simp only [cassandra_ingest]
    rw [if_neg (by omega), ih (ctr + 1) (att + 1) k rest (by omega)]
    have e1 : ctr + 1 + j = ctr + (j + 1) := by omega
    have e2 : att + 1 + j = att + (j + 1) := by omega
    rw [e1, e2]

/-- C2: a store that throws on the first `k < budget` batch submissions
and then accepts the batch lets `cassandra_ingest` return after exactly
`k + 1` store calls; a store that always throws makes it re-raise after
exactly `budget + 1` store calls. -/
theorem cassandra_ingest_retry_budget (k retry_thsh : Nat) (hk : k < retry_thsh) :
    cassandra_ingest retry_thsh 0 0 none
        (List.replicate k StoreOutcome.batchThrow ++ [StoreOutcome.batchOk 0])
      = some (RunResult.completed (k + 1))
    ∧ ∀ rest, cassandra_ingest retry_thsh 0 0 none
        (List.replicate (retry_thsh + 1) StoreOutcome.batchThrow ++ rest)
      = some (RunResult.raised (retry_thsh + 1)) := by
  constructor
  · rw [cassandra_ingest_throws retry_thsh k 0 0 _ (by omega)]
    simp only [Nat.zero_add, cassandra_ingest]
  · intro rest
    have hsplit : List.replicate (retry_thsh + 1) StoreOutcome.batchThrow ++ rest
        = List.replicate retry_thsh StoreOutcome.batchThrow
          ++ (StoreOutcome.batchThrow :: rest) := by
      rw [List.replicate_succ', List.append_assoc]
      rfl
    rw [hsplit, cassandra_ingest_throws retry_thsh retry_thsh 0 0 _ (by omega)]
    simp only [Nat.zero_add, cassandra_ingest]
    rw [if_pos (by omega)]

/-- Witness for C2 at `k = 2`, budget 5. -/
theorem cassandra_ingest_retry_budget_witness :
    cassandra_ingest 5 0 0 none
        (List.replicate 2 StoreOutcome.batchThrow ++ [StoreOutcome.batchOk 0])
      = some (RunResult.completed 3)
    ∧ cassandra_ingest 5 0 0 none
        (List.replicate 6 StoreOutcome.batchThrow ++ [])
      = some (RunResult.raised 6) :=
  ⟨(cassandra_ingest_retry_budget 2 5 (by decide)).1,
   (cassandra_ingest_retry_budget 2 5 (by decide)).2 []⟩

/-- C3 counterexample: with budget 2, two batch throws followed by a
batch submission that is accepted (one row failing) and then a single
row failure exhaust the budget after 4 store calls — the code does not
reset the counter on the successful submission pass.  The
`cassandra_ingest_reset_on_pass` variant, which behaves as the claim
states, does not raise on this trace (it runs out of trace instead). -/
theorem cassandra_ingest_no_reset_on_batch_pass :
    cassandra_ingest 2 0 0 none
        [StoreOutcome.batchThrow, StoreOutcome.batchThrow, StoreOutcome.batchOk 1,
         StoreOutcome.rowFail]
      = some (RunResult.raised 4)
    ∧ cassandra_ingest_reset_on_pass 2 0 0 none
        [StoreOutcome.batchThrow, StoreOutcome.batchThrow, StoreOutcome.batchOk 1,
         StoreOutcome.rowFail]
      = none :=
  ⟨rfl, rfl⟩

/-- C3 amended: batch-level and row-level failures are charged to the
same shared counter, and only a successful single-row write resets it; a
successful batch submission does not, so `j` batch throws followed by
`m` row failures with `j + m = budget + 1` are fatal even though a
successful submission pass lies between them, while after a row-level
success a further `budget` consecutive failures are again tolerated. -/
theorem cassandra_ingest_shared_counter (retry_thsh j m : Nat)
    (hjm : j + m = retry_thsh + 1) (hm : 0 < m) :
    cassandra_ingest retry_thsh 0 0 none
        (List.replicate j StoreOutcome.batchThrow ++ StoreOutcome.batchOk 1 ::
         List.replicate m StoreOutcome.rowFail)
      = some (RunResult.raised (j + m + 1))
    ∧ cassandra_ingest retry_thsh 0 0 none
        (StoreOutcome.batchOk 2 :: StoreOutcome.rowOk ::
         (List.replicate retry_thsh StoreOutcome.rowFail ++ [StoreOutcome.rowOk]))
      = some (RunResult.completed (retry_thsh + 3)) := by
  constructor
  · rw [cassandra_ingest_throws retry_thsh j 0 0 _ (by omega)]
    simp only [Nat.zero_add, cassandra_ingest]
    have hsplit : List.replicate m StoreOutcome.rowFail
        = List.replicate (m - 1) StoreOutcome.rowFail ++ [StoreOutcome.rowFail] := by
      have hm1 : m = (m - 1) + 1 := by omega
      rw [hm1, List.replicate_succ']
      simp
    rw [hsplit, cassandra_ingest_rowfails retry_thsh (m - 1) j (j + 1) 1 _ (by omega)]
    simp only [cassandra_ingest]
    rw [if_pos (by omega)]
    have e : j + 1 + (m - 1) + 1 = j + m + 1 := by omega
    rw [e]
  · simp only [cassandra_ingest]
    rw [cassandra_ingest_rowfails retry_thsh retry_thsh 0 2 1 _ (by omega)]
    simp only [Nat.zero_add, cassandra_ingest]
    have e : 2 + retry_thsh + 1 = retry_thsh + 3 := by omega
    rw [e]

/-- Witness for C3's amended claim at budget 2, `j = 2`, `m = 1`. -/
theorem cassandra_ingest_shared_counter_witness :
    cassandra_ingest 2 0 0 none
        (List.replicate 2 StoreOutcome.batchThrow ++ StoreOutcome.batchOk 1 ::
         List.replicate 1 StoreOutcome.rowFail)
      = some (RunResult.raised 4)
    ∧ cassandra_ingest 2 0 0 none
        (StoreOutcome.batchOk 2 :: StoreOutcome.rowOk ::
         (List.replicate 2 StoreOutcome.rowFail ++ [StoreOutcome.rowOk]))
      = some (RunResult.completed 5) :=
  ⟨(cassandra_ingest_shared_counter 2 2 1 (by decide) (by decide)).1,
   (cassandra_ingest_shared_counter 2 2 1 (by decide) (by decide)).2⟩

/-- C6: the bucket assigner is floor division by the bucket size, errors
on a zero bucket size, and is monotone non-decreasing in the id. -/
theorem bucket_div_monotone (bucket_size i j : Nat) :
    (0 < bucket_size → bucket bucket_size i = some (i / bucket_size))
    ∧ (bucket_size = 0 → bucket bucket_size i = none)
    ∧ (i ≤ j → ∀ g h, bucket bucket_size i = some g →
        bucket bucket_size j = some h → g ≤ h) := by
  refine ⟨?_, ?_, ?_⟩
  · intro hb
    match bucket_size, hb with
    | b + 1, _ => rfl
  · intro hb
    subst hb
    rfl
  · intro hij g h hg hh
    match bucket_size, hg, hh with
    | b + 1, hg, hh =>
      simp only [bucket, Option.some.injEq] at hg hh
      subst hg
      subst hh
      exact Nat.div_le_div_right hij

/-- Witness for C6 at bucket size 1000 and ids 500 and 2500. -/
theorem bucket_div_monotone_witness :
    bucket 1000 2500 = some (2500 / 1000)
    ∧ bucket 0 7 = none
    ∧ (500 / 1000 : Nat) ≤ 2500 / 1000 :=
  ⟨(bucket_div_monotone 1000 2500 2500).1 (by decide),
   (bucket_div_monotone 0 7 7).2.1 rfl,
   (bucket_div_monotone 1000 500 2500).2.2 (by decide) (500 / 1000) (2500 / 1000)
     rfl rfl⟩

/-- C10: with no explicit start block, ingestion starts at `M + 1` when
the checkpoint resolves to `M`, and at block 0 when it resolves to none. -/
theorem resume_start_block (m : Nat) :
    compute_start_block none (some m) = m + 1
    ∧ compute_start_block none none = 0 :=
  ⟨rfl, rfl⟩

theorem windows_step (w s e : Nat) (hw : 0 < w) (hse : s ≤ e) :
    windows w s e = (s, min e (s + w - 1)) :: windows w (s + w) e := by
  rw [windows, dif_pos ⟨hw, hse⟩]

theorem windows_stop (w s e : Nat) (hse : ¬ s ≤ e) :
    windows w s e = [] := by
  rw [windows, dif_neg fun hh => hse hh.2]

theorem windows_cover_aux : ∀ (w s e : Nat), 0 < w → s ≤ e →
    ((windows w s e).flatMap fun p => rangeIds p.1 (p.2 + 1 - p.1))
      = rangeIds s (e + 1 - s) := by
  intro w s e
  induction s, e using windows.induct w with
  | case1 s e h ih =>
    intro hw hse
    rw [windows_step w s e hw hse, List.flatMap_cons]
    dsimp only
    by_cases hle : s + w ≤ e
    · have hlen : min e (s + w - 1) + 1 - s = w := by omega
      rw [hlen, ih hw hle, rangeIds_append w s (e + 1 - (s + w))]
      have hsum : w + (e + 1 - (s + w)) = e + 1 - s := by omega
      rw [hsum]
    · rw [windows_stop w (s + w) e hle, List.flatMap_nil, List.append_nil]
      have hlen : min e (s + w - 1) + 1 - s = e + 1 - s := by omega
      rw [hlen]
  | case2 s e h =>
    intro hw hse
    exact absurd ⟨hw, hse⟩ h

/-- C4: the scheduler processes exactly the consecutive windows of size
`w` starting at `s`, the last clipped to `e` — their concatenated id
ranges are precisely `s..e` in order, nothing skipped or reordered — and
ids 0..2499 with window size 1000 give the three windows of the spec. -/
theorem scheduler_windows_cover (w s e : Nat) (hw : 0 < w) (hse : s ≤ e) :
    ((windows w s e).flatMap fun p => rangeIds p.1 (p.2 + 1 - p.1))
      = rangeIds s (e + 1 - s)
    ∧ windows 1000 0 2499 = [(0, 999), (1000, 1999), (2000, 2499)] := by
  refine ⟨windows_cover_aux w s e hw hse, ?_⟩
  rw [windows_step 1000 0 2499 (by decide) (by decide),
      windows_step 1000 1000 2499 (by decide) (by decide),
      windows_step 1000 2000 2499 (by decide) (by decide),
      windows_stop 1000 3000 2499 (by decide)]
  norm_num

/-- Witness for C4 on the spec's end-to-end scenario. -/
theorem scheduler_windows_cover_witness :
    ((windows 1000 0 2499).flatMap fun p => rangeIds p.1 (p.2 + 1 - p.1))
      = rangeIds 0 2500
    ∧ windows 1000 0 2499 = [(0, 999), (1000, 1999), (2000, 2499)] :=
  scheduler_windows_cover 1000 0 2499 (by decide) (by decide)

/-- C5: the single-threaded main loop submits, within every window, the
four row sets in the fixed order logs, traces, transactions, blocks, and
emits all submissions of one window before any submission of the next:
its submission trace is exactly the per-window four-element blocks in
window order. -/
theorem main_schedule_table_order (w s e : Nat) :
    main_schedule w s e
      = (windows w s e).flatMap fun p =>
          [(Table.log, p.1, p.2), (Table.trace, p.1, p.2),
           (Table.transaction, p.1, p.2), (Table.block, p.1, p.2)] := by
  induction s, e using windows.induct w with
  | case1 s e h ih =>
    rw [main_schedule, dif_pos h, windows_step w s e h.1 h.2, List.flatMap_cons, ih]
    rfl
  | case2 s e h =>
    rw [main_schedule, dif_neg h, windows, dif_neg h]
    rfl

theorem divGroup_eq (v : Value) (bs : Nat) (g : Value)
    (h : divGroup v bs = some g) :
    ∃ n, v = Value.nat n ∧ g = Value.nat (n / bs) :=
  match v, bs, h with
  | Value.nat n, _ + 1, h => ⟨n, rfl, (Option.some.inj h).symm⟩
  | Value.nat _, 0, h => nomatch h
  | Value.str _, _, h => nomatch h
  | Value.bytes _, _, h => nomatch h
  | Value.vlist _, _, h => nomatch h
  | Value.vtuple _, _, h => nomatch h
  | Value.vdict _, _, h => nomatch h
  | Value.null, _, h => nomatch h
  | Value.unset, _, h => nomatch h

theorem transform_block_fields (bs : Nat) (item row : Dict)
    (h : transform_block bs item = some row) :
    ∃ n, dget item ("number") = some (Value.nat n)
      ∧ dget row ("block_id") = some (Value.nat n)
      ∧ dget row ("block_id_group") = some (Value.nat (n / bs)) := by
  simp only [transform_block, Option.bind_eq_some] at h
  obtain ⟨tv, hty, num, hnum, bid, hbid, g, hg, hv, hhash, hcb⟩ := h
  obtain ⟨n, hbn, hgn⟩ := divGroup_eq bid bs g hg
  rw [dget_dset_same] at hbid
  have hnv : num = Value.nat n := (Option.some.inj hbid).trans hbn
  have h1 := convert_blobs_not_mem block_blob_columns _ row ("block_id")
    (by decide) hcb
  rw [dget_dset_ne _ ("block_hash") ("block_id") _ (by decide),
      dget_dpop_ne _ ("hash") ("block_id") (by decide),
      dget_dset_ne _ ("block_id_group") ("block_id") _ (by decide),
      dget_dset_same] at h1
  have h2 := convert_blobs_not_mem block_blob_columns _ row ("block_id_group")
    (by decide) hcb
  rw [dget_dset_ne _ ("block_hash") ("block_id_group") _ (by decide),
      dget_dpop_ne _ ("hash") ("block_id_group") (by decide),
      dget_dset_same] at h2
  rw [dget_dpop_ne _ ("type") ("number") (by decide)] at hnum
  refine ⟨n, ?_, ?_, ?_⟩
  · rw [hnum, hnv]
  · rw [h1, hnv]
  · rw [h2, hgn]

theorem transform_trace_fields (bs : Nat) (item row : Dict)
    (h : transform_trace bs item = some row) :
    ∃ n, dget item ("block_number") = some (Value.nat n)
      ∧ dget row ("block_id") = some (Value.nat n)
      ∧ dget row ("block_id_group") = some (Value.nat (n / bs)) := by
  simp only [transform_trace, Option.bind_eq_some] at h
  obtain ⟨tv, hty, th, hth, bn, hbn, bid, hbid, g, hg, ta, hta, tj, htj, hcb⟩ := h
  obtain ⟨n, hnn, hgn⟩ := divGroup_eq bid bs g hg
  rw [dget_dset_same] at hbid
  have hnv : bn = Value.nat n := (Option.some.inj hbid).trans hnn
  have h1 := convert_blobs_not_mem trace_blob_columns _ row ("block_id")
    (by decide) hcb
  rw [dget_dset_ne _ ("trace_address") ("block_id") _ (by decide),
      dget_dset_ne _ ("block_id_group") ("block_id") _ (by decide),
      dget_dset_same] at h1
  have h2 := convert_blobs_not_mem trace_blob_columns _ row ("block_id_group")
    (by decide) hcb
  rw [dget_dset_ne _ ("trace_address") ("block_id_group") _ (by decide),
      dget_dset_same] at h2
  rw [dget_dset_ne _ ("tx_hash") ("block_number") _ (by decide),
      dget_dpop_ne _ ("transaction_hash") ("block_number") (by decide),
      dget_dpop_ne _ ("type") ("block_number") (by decide)] at hbn
  refine ⟨n, ?_, ?_, ?_⟩
  · rw [hbn, hnv]
  · rw [h1, hnv]
  · rw [h2, hgn]

theorem transform_transaction_fields (prefixLen : Nat) (item row : Dict)
    (hs : String)
    (hng : dget item ("block_id_group") = none)
    (hhash0 : dget item ("hash") = some (Value.str hs))
    (h : transform_transaction prefixLen item = some row) :
    dget row ("block_id_group") = none
    ∧ (∃ bn, dget item ("block_number") = some bn
        ∧ dget row ("block_id") = some bn)
    ∧ dget row ("tx_hash_prefix")
        = some (Value.str ((hs.drop 2).take prefixLen)) := by
  simp only [transform_transaction, Option.bind_eq_some] at h
  obtain ⟨tv, hty, hv, hhash, thv, hthv, pv, hpv, bn, hbn, hcb⟩ := h
  rw [dget_dset_same] at hthv
  have hthv' : hv = thv := Option.some.inj hthv
  rw [dget_dpop_ne _ ("type") ("hash") (by decide), hhash0] at hhash
  have hvs : hv = Value.str hs := (Option.some.inj hhash).symm
  have hthvs : thv = Value.str hs := hthv' ▸ hvs
  subst hthvs
  have hpv' : pv = Value.str ((hs.drop 2).take prefixLen) :=
    (Option.some.inj hpv).symm
  refine ⟨?_, ⟨bn, ?_, ?_⟩, ?_⟩
  · have h1 := convert_blobs_not_mem tx_blob_columns _ row ("block_id_group")
      (by decide) hcb
    rw [dget_dset_ne _ ("block_id") ("block_id_group") _ (by decide),
        dget_dpop_ne _ ("block_number") ("block_id_group") (by decide),
        dget_dset_ne _ ("tx_hash_prefix") ("block_id_group") _ (by decide),
        dget_dset_ne _ ("tx_hash") ("block_id_group") _ (by decide),
        dget_dpop_ne _ ("hash") ("block_id_group") (by decide),
        dget_dpop_ne _ ("type") ("block_id_group") (by decide)] at h1
    rw [h1, hng]
  · rw [dget_dset_ne _ ("tx_hash_prefix") ("block_number") _ (by decide),
        dget_dset_ne _ ("tx_hash") ("block_number") _ (by decide),
        dget_dpop_ne _ ("hash") ("block_number") (by decide),
        dget_dpop_ne _ ("type") ("block_number") (by decide)] at hbn
    exact hbn
  · have h1 := convert_blobs_not_mem tx_blob_columns _ row ("block_id")
      (by decide) hcb
    rw [dget_dset_same] at h1
    exact h1
  · have h1 := convert_blobs_not_mem tx_blob_columns _ row ("tx_hash_prefix")
      (by decide) hcb
    rw [dget_dset_ne _ ("block_id") ("tx_hash_prefix") _ (by decide),
        dget_dpop_ne _ ("block_number") ("tx_hash_prefix") (by decide),
        dget_dset_same] at h1
    rw [h1, hpv']

theorem dget_ite_dpop (c : Prop) [Decidable c] (m : Dict) (k k' : String)
    (h : k ≠ k') :
    dget (if c then dpop m k else m) k' = dget m k' := by
  split
  · exact dget_dpop_ne m k k' h
  · rfl

theorem dget_ite_dset (c : Prop) [Decidable c] (m : Dict) (k k' : String)
    (v : Value) (h : k ≠ k') :
    dget (if c then m else dset m k v) k' = dget m k' := by
  split
  · rfl
  · exact dget_dset_ne m k k' v h

theorem transform_log_fields (bs : Nat) (item row : Dict)
    (h : transform_log bs item = some row) :
    (∃ n, dget item ("block_number") = some (Value.nat n)
      ∧ dget row ("block_id") = some (Value.nat n)
      ∧ dget row ("block_id_group") = some (Value.nat (n / bs)))
    ∧ (dget item ("topic0") = none →
       ∃ tv tpcs v', dget item ("topics") = some tv
         ∧ asTopicsList tv = some tpcs
         ∧ hex_to_bytearray (headTopic tpcs) = some v'
         ∧ dget row ("topic0") = some v') := by
  simp only [transform_log, Option.bind_eq_some] at h
  obtain ⟨tv0, hty, th, hth, bn, hbn, bid, hbid, g, hg, tvv, htv, tpcs, htpcs,
    ts, hts, hcb⟩ := h
  obtain ⟨n, hnn, hgn⟩ := divGroup_eq bid bs g hg
  rw [dget_dset_same] at hbid
  have hnv : bn = Value.nat n := (Option.some.inj hbid).trans hnn
  constructor
  · have h1 := convert_blobs_not_mem log_blob_columns _ row ("block_id")
      (by decide) hcb
    rw [dget_ite_dpop _ _ ("transaction_hash") ("block_id") (by decide),
        dget_dset_ne _ ("topics") ("block_id") _ (by decide),
        dget_ite_dset _ _ ("topic0") ("block_id") _ (by decide),
        dget_dset_ne _ ("block_id_group") ("block_id") _ (by decide),
        dget_dset_same] at h1
    have h2 := convert_blobs_not_mem log_blob_columns _ row ("block_id_group")
      (by decide) hcb
    rw [dget_ite_dpop _ _ ("transaction_hash") ("block_id_group") (by decide),
        dget_dset_ne _ ("topics") ("block_id_group") _ (by decide),
        dget_ite_dset _ _ ("topic0") ("block_id_group") _ (by decide),
        dget_dset_same] at h2
    rw [dget_dset_ne _ ("tx_hash") ("block_number") _ (by decide),
        dget_dpop_ne _ ("transaction_hash") ("block_number") (by decide),
        dget_dpop_ne _ ("type") ("block_number") (by decide)] at hbn
    exact ⟨n, hnv ▸ hbn, hnv ▸ h1, hgn ▸ h2⟩
  · intro h0
    have hc2 : dget (dset (dset (dpop (dset (dpop (dpop item ("type"))
        ("transaction_hash")) ("tx_hash") th) ("block_number")) ("block_id") bn)
        ("block_id_group") g) ("topic0") = none := by
      rw [dget_dset_ne _ ("block_id_group") ("topic0") _ (by decide),
          dget_dset_ne _ ("block_id") ("topic0") _ (by decide),
          dget_dpop_ne _ ("block_number") ("topic0") (by decide),
          dget_dset_ne _ ("tx_hash") ("topic0") _ (by decide),
          dget_dpop_ne _ ("transaction_hash") ("topic0") (by decide),
          dget_dpop_ne _ ("type") ("topic0") (by decide)]
      exact h0
    rw [hc2] at hcb
    simp only [Option.isSome_none, Bool.false_eq_true, if_false] at hcb
    rw [dget_dset_ne _ ("block_id_group") ("topics") _ (by decide),
        dget_dset_ne _ ("block_id") ("topics") _ (by decide),
        dget_dpop_ne _ ("block_number") ("topics") (by decide),
        dget_dset_ne _ ("tx_hash") ("topics") _ (by decide),
        dget_dpop_ne _ ("transaction_hash") ("topics") (by decide),
        dget_dpop_ne _ ("type") ("topics") (by decide)] at htv
    obtain ⟨v, v', hvv, hvv', hres⟩ :=
      convert_blobs_mem [("block_hash"), ("address"), ("data")] [("tx_hash")]
        _ row ("topic0") (by decide) (by decide) hcb
    rw [dget_ite_dpop _ _ ("transaction_hash") ("topic0") (by decide),
        dget_dset_ne _ ("topics") ("topic0") _ (by decide),
        dget_dset_same] at hvv
    have hv' : headTopic tpcs = v := Option.some.inj hvv
    exact ⟨tvv, tpcs, v', htv, htpcs, hv' ▸ hvv', hres⟩

/-- A topics value is well-formed when, if it is a list, all entries are
strings — true of every log record the extraction service produces. -/
def isStr : Value → Bool
  | Value.str _ => true
  | _ => false

def topicsWellFormed : Option Value → Bool
  | some (Value.vlist vs) => vs.all isStr
  | _ => true

theorem asTopicsList_eq (v : Value) (l : List Value)
    (h : asTopicsList v = some l) :
    (v = Value.null ∧ l = []) ∨ v = Value.vlist l :=
  match v, h with
  | Value.null, h => Or.inl ⟨rfl, (Option.some.inj h).symm⟩
  | Value.vlist vs, h => Or.inr (by rw [Option.some.inj h])
  | Value.nat _, h => nomatch h
  | Value.str _, h => nomatch h
  | Value.bytes _, h => nomatch h
  | Value.vtuple _, h => nomatch h
  | Value.vdict _, h => nomatch h
  | Value.unset, h => nomatch h

/-- A raw block record as produced by the extraction service. -/
def sampleBlockItem : Dict :=
  [(("type"), Value.str ("block")), (("number"), Value.nat 2499),
   (("hash"), Value.str ("0xab")), (("parent_hash"), Value.null),
   (("nonce"), Value.null), (("sha3_uncles"), Value.null),
   (("logs_bloom"), Value.null), (("transactions_root"), Value.null),
   (("state_root"), Value.null), (("receipts_root"), Value.null),
   (("miner"), Value.null), (("extra_data"), Value.null)]

/-- A raw transaction record as produced by the extraction service. -/
def sampleTxItem : Dict :=
  [(("type"), Value.str ("transaction")), (("hash"), Value.str ("0xabcdef12")),
   (("block_number"), Value.nat 2499), (("from_address"), Value.null),
   (("to_address"), Value.null), (("input"), Value.null),
   (("block_hash"), Value.null), (("receipt_contract_address"), Value.null),
   (("receipt_root"), Value.null)]

/-- A raw trace record as produced by the extraction service. -/
def sampleTraceItem : Dict :=
  [(("type"), Value.str ("trace")), (("transaction_hash"), Value.str ("0xff00")),
   (("block_number"), Value.nat 1500),
   (("trace_address"), Value.vlist [Value.nat 0, Value.nat 2]),
   (("from_address"), Value.null), (("to_address"), Value.null),
   (("input"), Value.null), (("output"), Value.null)]

/-- A raw log record as produced by the extraction service. -/
def sampleLogItem : Dict :=
  [(("type"), Value.str ("log")), (("transaction_hash"), Value.str ("0xff00")),
   (("block_number"), Value.nat 2499),
   (("topics"), Value.vlist [Value.str ("0xdeadbeef")]),
   (("block_hash"), Value.null), (("address"), Value.null),
   (("data"), Value.null)]

/-- C7 counterexample: the transaction transformer emits a row with a
`block_id` and a `tx_hash_prefix` but no `block_id_group` bucket field at
all — the claim that every one of the four entity kinds carries a
`bucket_id` fails for transactions. -/
theorem transaction_row_has_no_bucket :
    (transform_transaction 5 sampleTxItem).isSome = true
    ∧ dget ((transform_transaction 5 sampleTxItem).getD []) ("block_id_group")
        = none
    ∧ dget ((transform_transaction 5 sampleTxItem).getD []) ("block_id")
        = some (Value.nat 2499)
    ∧ dget ((transform_transaction 5 sampleTxItem).getD []) ("tx_hash_prefix")
        = some (Value.str ("abcde")) :=
  ⟨rfl, rfl, rfl, rfl⟩

/-- C7 (amended): block, trace and log rows carry the numeric primary id
`block_id` taken from the record's block number and a bucket key
`block_id_group = block number / bucket_size`; transaction rows carry
`block_id` and the `tx_hash_prefix` shard key (first `prefixLen` hex
characters of the hash) but no bucket field. -/
theorem storage_row_bucket_keys (bs prefixLen : Nat) (item row : Dict)
    (hs : String) :
    (transform_block bs item = some row →
      ∃ n, dget item ("number") = some (Value.nat n)
        ∧ dget row ("block_id") = some (Value.nat n)
        ∧ dget row ("block_id_group") = some (Value.nat (n / bs)))
    ∧ (transform_trace bs item = some row →
      ∃ n, dget item ("block_number") = some (Value.nat n)
        ∧ dget row ("block_id") = some (Value.nat n)
        ∧ dget row ("block_id_group") = some (Value.nat (n / bs)))
    ∧ (transform_log bs item = some row →
      ∃ n, dget item ("block_number") = some (Value.nat n)
        ∧ dget row ("block_id") = some (Value.nat n)
        ∧ dget row ("block_id_group") = some (Value.nat (n / bs)))
    ∧ (dget item ("block_id_group") = none →
       dget item ("hash") = some (Value.str hs) →
       transform_transaction prefixLen item = some row →
        dget row ("block_id_group") = none
        ∧ (∃ bn, dget item ("block_number") = some bn
            ∧ dget row ("block_id") = some bn)
        ∧ dget row ("tx_hash_prefix")
            = some (Value.str ((hs.drop 2).take prefixLen))) :=
  ⟨transform_block_fields bs item row,
   transform_trace_fields bs item row,
   fun hh => (transform_log_fields bs item row hh).1,
   fun h1 h2 h3 => transform_transaction_fields prefixLen item row hs h1 h2 h3⟩

/-- Witness for C7's amended claim on the four sample records. -/
theorem storage_row_bucket_keys_witness :
    (∃ n, dget sampleBlockItem ("number") = some (Value.nat n)
      ∧ dget ((transform_block 1000 sampleBlockItem).getD []) ("block_id")
          = some (Value.nat n)
      ∧ dget ((transform_block 1000 sampleBlockItem).getD []) ("block_id_group")
          = some (Value.nat (n / 1000)))
    ∧ (∃ n, dget sampleTraceItem ("block_number") = some (Value.nat n)
      ∧ dget ((transform_trace 1000 sampleTraceItem).getD []) ("block_id")
          = some (Value.nat n)
      ∧ dget ((transform_trace 1000 sampleTraceItem).getD []) ("block_id_group")
          = some (Value.nat (n / 1000)))
    ∧ (∃ n, dget sampleLogItem ("block_number") = some (Value.nat n)
      ∧ dget ((transform_log 1000 sampleLogItem).getD []) ("block_id")
          = some (Value.nat n)
      ∧ dget ((transform_log 1000 sampleLogItem).getD []) ("block_id_group")
          = some (Value.nat (n / 1000)))
    ∧ (dget ((transform_transaction 5 sampleTxItem).getD []) ("block_id_group")
          = none
      ∧ (∃ bn, dget sampleTxItem ("block_number") = some bn
          ∧ dget ((transform_transaction 5 sampleTxItem).getD []) ("block_id")
              = some bn)
      ∧ dget ((transform_transaction 5 sampleTxItem).getD []) ("tx_hash_prefix")
          = some (Value.str ((("0xabcdef12").drop 2).take 5))) :=
  ⟨(storage_row_bucket_keys 1000 5 sampleBlockItem
      ((transform_block 1000 sampleBlockItem).getD []) ("")).1 rfl,
   (storage_row_bucket_keys 1000 5 sampleTraceItem
      ((transform_trace 1000 sampleTraceItem).getD []) ("")).2.1 rfl,
   (storage_row_bucket_keys 1000 5 sampleLogItem
      ((transform_log 1000 sampleLogItem).getD []) ("")).2.2.1 rfl,
   (storage_row_bucket_keys 1000 5 sampleTxItem
      ((transform_transaction 5 sampleTxItem).getD [])
      ("0xabcdef12")).2.2.2 rfl rfl rfl⟩

/-- C8: for every transformed log row whose raw record has no `topic0`
field and whose topics are well-formed (a list of hex strings, or null,
or absent), `topic0` is populated with a binary value: the decoded first
topic when the list is non-empty, and the decoded `"0x"` sentinel (the
empty byte string) when the topics are null or empty; it is never a
structural null nor the unset marker, also after `none_to_unset`. -/
theorem log_topic0_populated (bs : Nat) (item row : Dict)
    (h0 : dget item ("topic0") = none)
    (hwf : topicsWellFormed (dget item ("topics")) = true)
    (h : transform_log bs item = some row) :
    ∃ b : List Nat,
      dget row ("topic0") = some (Value.bytes b)
      ∧ dget (noneToUnsetDict row) ("topic0") = some (Value.bytes b)
      ∧ dget row ("topic0") ≠ some Value.null
      ∧ dget row ("topic0") ≠ some Value.unset
      ∧ (∀ s tl, dget item ("topics") = some (Value.vlist (Value.str s :: tl)) →
          bytearray_fromhex (s.drop 2) = some b)
      ∧ ((dget item ("topics") = some Value.null
          ∨ dget item ("topics") = some (Value.vlist [])) → b = []) := by
  obtain ⟨tv, tpcs, v', htv, htpcs, hhex, hres⟩ :=
    (transform_log_fields bs item row h).2 h0
  have hmap : dget (noneToUnsetDict row) ("topic0")
      = (dget row ("topic0")).map unsetNone := dget_map_values row unsetNone _
  rcases asTopicsList_eq tv tpcs htpcs with ⟨htvn, htpn⟩ | htvl
  · subst htvn
    subst htpn
    have hv' : Value.bytes [] = v' := Option.some.inj hhex
    rw [← hv'] at hres
    refine ⟨[], hres, ?_, ?_, ?_, ?_, fun _ => rfl⟩
    · rw [hmap, hres]
      rfl
    · rw [hres]
      intro hh
      exact Value.noConfusion (Option.some.inj hh)
    · rw [hres]
      intro hh
      exact Value.noConfusion (Option.some.inj hh)
    · intro s tl hh
      rw [htv] at hh
      exact absurd (Option.some.inj hh) (fun hx => Value.noConfusion hx)
  · subst htvl
    match tpcs, hwf, htv, hhex with
    | [], _, htv, hhex =>
      have hv' : Value.bytes [] = v' := Option.some.inj hhex
      rw [← hv'] at hres
      refine ⟨[], hres, ?_, ?_, ?_, ?_, fun _ => rfl⟩
      · rw [hmap, hres]
        rfl
      · rw [hres]
        intro hh
        exact Value.noConfusion (Option.some.inj hh)
      · rw [hres]
        intro hh
        exact Value.noConfusion (Option.some.inj hh)
      · intro s tl hh
        rw [htv] at hh
        have h1 := Option.some.inj hh
        injection h1 with hlist
        exact absurd hlist (by intro hx; cases hx)
    | hd :: tl0, hwf, htv, hhex =>
      rw [htv] at hwf
      have hall : (hd :: tl0).all isStr = true := hwf
      have hhd : isStr hd = true := (List.all_cons .. ▸ hall |> Bool.and_elim_left)
      match hd, hhd, htv, hhex with
      | Value.str s0, _, htv, hhex =>
        simp only [headTopic, hex_to_bytearray, Option.map_eq_some'] at hhex
        obtain ⟨b, hb, hbv⟩ := hhex
        rw [← hbv] at hres
        refine ⟨b, hres, ?_, ?_, ?_, ?_, ?_⟩
        · rw [hmap, hres]
          rfl
        · rw [hres]
          intro hh
          exact Value.noConfusion (Option.some.inj hh)
        · rw [hres]
          intro hh
          exact Value.noConfusion (Option.some.inj hh)
        · intro s tl hh
          rw [htv] at hh
          have h1 := Option.some.inj hh
          injection h1 with h2
          injection h2 with h3 h4
          injection h3 with h5
          rw [← h5]
          exact hb
        · intro hh
          rcases hh with hh | hh <;> rw [htv] at hh <;>
            have h1 := Option.some.inj hh
          · exact absurd h1 (by intro hx; cases hx)
          · injection h1 with h2
            exact absurd h2 (by intro hx; cases hx)

/-- Witness for C8 on a log record with one topic. -/
theorem log_topic0_populated_witness :
    ∃ b : List Nat,
      dget ((transform_log 1000 sampleLogItem).getD []) ("topic0")
          = some (Value.bytes b)
      ∧ dget (noneToUnsetDict ((transform_log 1000 sampleLogItem).getD []))
            ("topic0") = some (Value.bytes b)
      ∧ dget ((transform_log 1000 sampleLogItem).getD []) ("topic0")
          ≠ some Value.null
      ∧ dget ((transform_log 1000 sampleLogItem).getD []) ("topic0")
          ≠ some Value.unset
      ∧ (∀ s tl, dget sampleLogItem ("topics")
            = some (Value.vlist (Value.str s :: tl)) →
          bytearray_fromhex (s.drop 2) = some b)
      ∧ ((dget sampleLogItem ("topics") = some Value.null
          ∨ dget sampleLogItem ("topics") = some (Value.vlist [])) → b = []) :=
  log_topic0_populated 1000 sampleLogItem
    ((transform_log 1000 sampleLogItem).getD []) rfl rfl rfl

theorem hasNoNullField_after (v v' : Value) (h : none_to_unset v = some v') :
    hasNoNullField v' = true := by
  cases v with
  | vdict m =>
    have hv : v' = Value.vdict (noneToUnsetDict m) := (Option.some.inj h).symm
    subst hv
    simp only [hasNoNullField, noneToUnsetDict, List.all_map]
    exact List.all_eq_true.mpr fun kv _ => notNull_unsetNone kv.2
  | vtuple vs =>
    have hv : v' = Value.vtuple (vs.map unsetNone) := (Option.some.inj h).symm
    subst hv
    simp only [hasNoNullField, List.all_map]
    exact List.all_eq_true.mpr fun x _ => notNull_unsetNone x
  | vlist vs =>
    have hv : v' = Value.vlist (vs.map unsetNone) := (Option.some.inj h).symm
    subst hv
    simp only [hasNoNullField, List.all_map]
    exact List.all_eq_true.mpr fun x _ => notNull_unsetNone x
  | nat n => exact nomatch h
  | str s => exact nomatch h
  | bytes b => exact nomatch h
  | null => exact nomatch h
  | unset => exact nomatch h

theorem ingest_rows_no_nulls (transform : Dict → Option Dict)
    (items : List Dict) (rows : List Value)
    (h : ingest_rows transform items = some rows) :
    ∀ r ∈ rows, hasNoNullField r = true := by
  intro r hr
  simp only [ingest_rows, Option.bind_eq_some] at h
  obtain ⟨ts, hts, h⟩ := h
  obtain ⟨x, hx, hfx⟩ := mapO_mem _ ts rows r h hr
  exact hasNoNullField_after _ r hfx

/-- C9: before any row reaches the write engine, every null field has
been replaced by the unset marker — `none_to_unset` maps exactly the
null values of a dict (or tuple, or list) to unset, every row the four
ingest functions hand to `cassandra_ingest` has no null field left, and
an input of any non-container type raises. -/
theorem none_to_unset_no_nulls :
    (∀ m : Dict, none_to_unset (Value.vdict m)
        = some (Value.vdict (m.map fun kv => (kv.1, unsetNone kv.2))))
    ∧ (∀ v v', none_to_unset v = some v' → hasNoNullField v' = true)
    ∧ (∀ v, isContainer v = false → none_to_unset v = none)
    ∧ (∀ bs items rows, ingest_blocks bs items = some rows →
        ∀ r ∈ rows, hasNoNullField r = true)
    ∧ (∀ L items rows, ingest_transactions L items = some rows →
        ∀ r ∈ rows, hasNoNullField r = true)
    ∧ (∀ bs items rows, ingest_traces bs items = some rows →
        ∀ r ∈ rows, hasNoNullField r = true)
    ∧ (∀ bs items rows, ingest_logs bs items = some rows →
        ∀ r ∈ rows, hasNoNullField r = true) := by
  refine ⟨fun m => rfl, hasNoNullField_after, ?_, ?_, ?_, ?_, ?_⟩
  · intro v hv
    cases v with
    | vdict m => exact nomatch hv
    | vtuple vs => exact nomatch hv
    | vlist vs => exact nomatch hv
    | nat n => rfl
    | str s => rfl
    | bytes b => rfl
    | null => rfl
    | unset => rfl
  · exact fun bs items rows h => ingest_rows_no_nulls _ items rows h
  · exact fun L items rows h => ingest_rows_no_nulls _ items rows h
  · exact fun bs items rows h => ingest_rows_no_nulls _ items rows h
  · exact fun bs items rows h => ingest_rows_no_nulls _ items rows h

/-- Witness for C9: a dict with a null field, a non-container input, and
a concrete block ingest batch. -/
theorem none_to_unset_no_nulls_witness :
    none_to_unset (Value.vdict [(("a"), Value.null)])
        = some (Value.vdict [(("a"), Value.unset)])
    ∧ hasNoNullField (Value.vtuple [Value.unset]) = true
    ∧ none_to_unset (Value.nat 3) = none
    ∧ (∀ r ∈ (ingest_blocks 1000 [sampleBlockItem]).getD [],
        hasNoNullField r = true) :=
  ⟨none_to_unset_no_nulls.1 [(("a"), Value.null)],
   none_to_unset_no_nulls.2.1 (Value.vtuple [Value.null])
     (Value.vtuple [Value.unset]) rfl,
   none_to_unset_no_nulls.2.2.1 (Value.nat 3) rfl,
   none_to_unset_no_nulls.2.2.2.1 1000 [sampleBlockItem]
     ((ingest_blocks 1000 [sampleBlockItem]).getD []) rfl⟩
